import Mathlib

/-!
# Verification of the OpenSesame browser-automation helper service

This file gives a shallow embedding, in Lean 4, of the parts of the
OpenSesame helper service (an Express server driving LangChain tools and a
Playwright browser) that the specification's testable claims are about:

* the natural-language date/time resolver `parseDateTimeString`;
* the end-time wraparound computation of the `create_calendar_event` tool;
* the pending-tab-request table (`pendingTabRequests`, a JS `Map`) together
  with the `POST /tab-requests/:id/complete` handler and the enqueue/poll
  logic of the `open_new_tab`, `navigate_browser` and `take_screenshot` tools;
* the success-detection wrapper installed around `agent.call` by `createAgent`.

JavaScript idioms are modelled explicitly: `String.prototype.includes` /
`startsWith` become substring/prefix tests on character lists, truthiness of
optional strings becomes `strTruthy`, and `Map` becomes an association list
with JS `Map.set` replacement semantics.  Mutable `Date` objects are modelled
at two granularities: the weekday-offset branches of the resolver only move
the date by a whole number of days, so they are modelled as a day offset from
"now"; the absolute month/day branch mutates calendar fields with JS
`setMonth`/`setDate` overflow normalisation, so it is modelled on a civil
(year, month, day) record.
-/


/-! ## JavaScript string and truthiness primitives -/


/-- JS `String.prototype.includes`, on character lists: `pat` occurs as a
contiguous substring of `hay`. -/
def containsSub (hay pat : List Char) : Bool :=
  match hay with
  | [] => pat.isEmpty
  | _ :: rest => pat.isPrefixOf hay || containsSub rest pat

/-- JS `hay.includes(pat)` on strings. -/
def includesStr (hay pat : String) : Bool :=
  containsSub hay.data pat.data

/-- JS `s.startsWith(p)`. -/
def jsStartsWith (s p : String) : Bool :=
  p.data.isPrefixOf s.data

/-- JS truthiness of a possibly-`undefined` string value: `undefined` and the
empty string are falsy, every other string is truthy. -/
def strTruthy : Option String → Bool
  | none => false
  | some s => !s.isEmpty

/-- JS `s.toLowerCase()`: character-wise ASCII lowercasing.  (Defined on the
character list so that it evaluates by kernel reduction; the inputs involved
here are ASCII, where JS `toLowerCase` and `Char.toLower` agree.) -/
def toLowerStr (s : String) : String :=
  String.mk (s.data.map Char.toLower)

/-- JS `a || b` for a possibly-`undefined` string `a` with string fallback. -/
def jsOrString (a : Option String) (b : String) : String :=
  match a with
  | some s => if s.isEmpty then b else s
  | none => b

/-! ## Temporal resolver: the relative-date keyword chain

`parseDateTimeString` starts from `targetDate = new Date()` (a copy of "now")
and walks an `if`/`else if` chain over `lowerDateTime = dateTimeStr.toLowerCase()`
(source lines 126–166).  Every branch of that chain mutates the date only via
`targetDate.setDate(targetDate.getDate() + offset)`, i.e. it adds a whole
number of days to "now", so the chain is modelled by the day offset it adds.
`wd` stands for `targetDate.getDay()` (0 = Sunday … 6 = Saturday), which at
that point still equals `now.getDay()`.  A `none` result means the chain fell
through to the `else` block (the "in N days" / absolute-date parsing of lines
167–210, modelled separately below). -/


/-- JS `n || 7`: a zero offset is replaced by 7. -/
def jsOrSeven (n : Int) : Int := if n = 0 then 7 else n

/-- Offset used by every `next <weekday>` branch:
`((target + 7 - targetDate.getDay()) % 7 || 7)`. -/
def nextWeekdayOffset (target wd : Int) : Int :=
  jsOrSeven ((target + 7 - wd) % 7)

/-- Offset used by every bare-weekday branch:
`((target - targetDate.getDay() + 7) % 7 || 7)`. -/
def bareWeekdayOffset (target wd : Int) : Int :=
  jsOrSeven ((target - wd + 7) % 7)

/-- The seven weekday keywords in the order the bare-weekday branches test
them (source lines 146–166). -/
def weekdayName : Fin 7 → String
  | 0 => "monday"
  | 1 => "tuesday"
  | 2 => "wednesday"
  | 3 => "thursday"
  | 4 => "friday"
  | 5 => "saturday"
  | 6 => "sunday"

/-- JS `getDay()` code of each weekday keyword (Sunday = 0). -/
def weekdayCode : Fin 7 → Int
  | 0 => 1
  | 1 => 2
  | 2 => 3
  | 3 => 4
  | 4 => 5
  | 5 => 6
  | 6 => 0

/-- The relative-date keyword chain of `parseDateTimeString` (lines 126–166).
The source is an 18-way `if`/`else if` chain over `lowerDateTime` that tests
these keywords in exactly this order and uses the offset of the first hit; it
is modelled as an ordered keyword/offset table searched with `List.find?`
(first match wins, like the chain). -/
def dateChainTable (wd : Int) : List (String × Int) :=
  [("tomorrow", 1),
   ("today", 0),
   ("next week", 7),
   ("next monday", nextWeekdayOffset 1 wd),
   ("next tuesday", nextWeekdayOffset 2 wd),
   ("next wednesday", nextWeekdayOffset 3 wd),
   ("next thursday", nextWeekdayOffset 4 wd),
   ("next friday", nextWeekdayOffset 5 wd),
   ("next saturday", nextWeekdayOffset 6 wd),
   ("next sunday", nextWeekdayOffset 0 wd),
   ("monday", bareWeekdayOffset 1 wd),
   ("tuesday", bareWeekdayOffset 2 wd),
   ("wednesday", bareWeekdayOffset 3 wd),
   ("thursday", bareWeekdayOffset 4 wd),
   ("friday", bareWeekdayOffset 5 wd),
   ("saturday", bareWeekdayOffset 6 wd),
   ("sunday", bareWeekdayOffset 0 wd)]

/-- The keyword chain over `l = lowerDateTime` (the already-lowercased input):
the day offset added to "now", or `none` when the chain falls through to the
absolute-date `else` block (lines 167–210, modelled separately below). -/
def dateChainOffsetLower (l : String) (wd : Int) : Option Int :=
  ((dateChainTable wd).find? (fun row => includesStr l row.1)).map (fun row => row.2)

/-- The relative-date keyword chain of `parseDateTimeString`, starting from
`const lowerDateTime = dateTimeStr.toLowerCase()` (line 123). -/
def dateChainOffset (dateTimeStr : String) (wd : Int) : Option Int :=
  dateChainOffsetLower (toLowerStr dateTimeStr) wd

/-! ## Temporal resolver: the absolute month/day branch

When no keyword of the chain matches, `parseDateTimeString` tries
`"<Month> <day>"` (lines 177–197) and then `"M/D"` (lines 199–208).  Both
branches mutate `targetDate` (still a copy of "now") in exactly the same way:
`setMonth(monthIndex)`, then `setDate(day)`, then `if (targetDate < now)
targetDate.setFullYear(targetDate.getFullYear() + 1)`.  JS `Date` field
setters normalise out-of-range day-of-month values by rolling into following
months, which the model reproduces for day values ≥ 1 (the only values the
claims concern; JS `setDate(0)` and negative days roll backwards and are not
modelled).  The comparison `targetDate < now` compares millisecond
timestamps; `targetDate` is created after `now` inside the function with the
same time of day, so at civil-date granularity it is `true` exactly when
`targetDate`'s (year, month, day) is lexicographically smaller — `dateLtB`
below. -/


/-- Gregorian leap-year rule, as implemented by JS `Date`. -/
def isLeapYear (y : Int) : Bool :=
  (y % 4 == 0 && y % 100 != 0) || y % 400 == 0

/-- Number of days of month `m` (0-based, January = 0) in year `y`. -/
def daysInMonth (y : Int) (m : Nat) : Nat :=
  match m with
  | 1 => if isLeapYear y then 29 else 28
  | 3 | 5 | 8 | 10 => 30
  | _ => 31

/-- A civil date as JS `Date` exposes it: `getFullYear()`, `getMonth()`
(0-based) and `getDate()` (1-based). -/
structure CivilDate where
  year : Int
  month : Nat
  day : Nat
deriving DecidableEq

/-- JS `Date` normalisation of a (year, month 0–11, day ≥ 1) triple whose day
may exceed the month length: excess days roll into the following months (and
across December into the next year).  Structured with explicit fuel (`d` is
always enough, each roll removes at least 28 days) so that it evaluates by
kernel reduction. -/
def normDateAux : Nat → Int → Nat → Nat → CivilDate
  | 0, y, m, d => ⟨y, m, d⟩
  | fuel + 1, y, m, d =>
    if d ≤ daysInMonth y m then ⟨y, m, d⟩
    else if m = 11 then normDateAux fuel (y + 1) 0 (d - 31)
    else normDateAux fuel y (m + 1) (d - daysInMonth y m)

def normDate (y : Int) (m : Nat) (d : Nat) : CivilDate :=
  normDateAux d y m d

/-- JS `t.setMonth(m)`: keeps the day-of-month, normalising overflow. -/
def jsSetMonth (t : CivilDate) (m : Nat) : CivilDate :=
  normDate t.year m t.day

/-- JS `t.setDate(d)`: sets the day-of-month, normalising overflow. -/
def jsSetDate (t : CivilDate) (d : Nat) : CivilDate :=
  normDate t.year t.month d

/-- JS `t.setFullYear(y)`: keeps month and day, normalising overflow
(February 29 rolls to March 1 in a non-leap year). -/
def jsSetFullYear (t : CivilDate) (y : Int) : CivilDate :=
  normDate y t.month t.day

/-- Civil-date comparison: the day-granularity content of the JS timestamp
comparison `targetDate < now` (see the section comment). -/
def dateLtB (a b : CivilDate) : Bool :=
  decide (a.year < b.year ∨ (a.year = b.year ∧
    (a.month < b.month ∨ (a.month = b.month ∧ a.day < b.day))))

/-- The shared absolute month/day resolution of `parseDateTimeString`
(lines 190–196 for `"<Month> <day>"`, lines 201–207 for `"M/D"`):
`targetDate.setMonth(monthIndex); targetDate.setDate(day);
if (targetDate < now) targetDate.setFullYear(getFullYear() + 1)`. -/
def resolveMonthDay (now : CivilDate) (monthIndex : Nat) (day : Nat) : CivilDate :=
  let t := jsSetDate (jsSetMonth now monthIndex) day
  if dateLtB t now then jsSetFullYear t (t.year + 1) else t

/-- Predicate: `now` holds a real calendar date. -/
def ValidCivil (t : CivilDate) : Prop :=
  t.month ≤ 11 ∧ 1 ≤ t.day ∧ t.day ≤ daysInMonth t.year t.month

/-! ## The calendar tool's end-time computation

`create_calendar_event` types a start time `"H:MM AM/PM"` taken directly from
the resolved time, then computes an end time one hour later (source lines
595–614) and types `` `${endHour}:${minute} ${endPeriod}` `` — the minutes are
reused unchanged from the start time. -/


/-- The `targetTime` record produced by `parseDateTimeString`:
`{ hour, minute, period }` with `period ∈ {"AM", "PM"}`. -/
structure TargetTime where
  hour : Nat
  minute : Nat
  period : String
deriving DecidableEq

/-- The end-time `if`/`else if` chain of `create_calendar_event`
(lines 595–614), including the reused minutes. -/
def calendarEndTime (t : TargetTime) : TargetTime :=
  if t.hour == 12 && t.period == "AM" then ⟨1, t.minute, "AM"⟩
  else if t.hour == 11 && t.period == "AM" then ⟨12, t.minute, "PM"⟩
  else if t.hour == 12 && t.period == "PM" then ⟨1, t.minute, "PM"⟩
  else if t.hour == 11 && t.period == "PM" then ⟨12, t.minute, "AM"⟩
  else if t.period == "AM" then ⟨t.hour + 1, t.minute, t.period⟩
  else ⟨t.hour + 1, t.minute, t.period⟩

/-! ## Temporal resolver: time extraction

Lines 213–248 extract a time with

`dateTimeStr.match(/(?:at\s+)?(\d{1,2})(?::(\d{2}))?\s*(am|pm|AM|PM)|(?:at\s+)?noon|(?:at\s+)?midnight/i)`

and post-process the match.  The regex is modelled as an executable
backtracking matcher with JS semantics: the scan tries each start position
from the left; at a position the three top-level alternatives are tried in
order; inside the numeric alternative the optional groups are greedy (the
`at␣` prefix, two digits before one, the `:mm` group present before absent).
Note that the numeric alternative requires the `(am|pm)` group — a bare hour
with no meridiem cannot match it.  Capture groups 1–3 are the hour digits,
the minute digits and the meridiem.  `\s` and `\d` are modelled at ASCII
granularity, which is exact for the inputs at issue. -/


/-- JS `\s` (ASCII part). -/
def isSpaceChar (c : Char) : Bool :=
  c == ' ' || c == '\t' || c == '\n' || c == '\r'

/-- Case-insensitive literal match (the `/i` flag); returns the consumed
original characters and the rest. -/
def litCI : List Char → List Char → Option (List Char × List Char)
  | [], cs => some ([], cs)
  | _ :: _, [] => none
  | p :: ps, c :: cs =>
    if c.toLower == p.toLower then
      match litCI ps cs with
      | some (con, r) => some (c :: con, r)
      | none => none
    else none

/-- Exactly `n` digits (`\d{n}`). -/
def takeDigits : Nat → List Char → Option (List Char × List Char)
  | 0, cs => some ([], cs)
  | _ + 1, [] => none
  | n + 1, c :: cs =>
    if c.isDigit then
      match takeDigits n cs with
      | some (ds, r) => some (c :: ds, r)
      | none => none
    else none

/-- The `at\s+` prefix: literal `at` followed by at least one space. -/
def atThenSpaces (cs : List Char) : Option (List Char × List Char) :=
  match litCI "at".data cs with
  | some (con, r) =>
    let sp := r.takeWhile isSpaceChar
    if sp.isEmpty then none else some (con ++ sp, r.dropWhile isSpaceChar)
  | none => none

/-- The required `(am|pm|AM|PM)` group (two characters, case-insensitive). -/
def meridiemTok : List Char → Option (List Char × List Char)
  | a :: b :: rest =>
    if (a.toLower == 'a' || a.toLower == 'p') && b.toLower == 'm' then
      some ([a, b], rest)
    else none
  | _ => none

/-- The capture groups of a regex match: `full` is `timeMatch[0]`,
the others `timeMatch[1]`–`timeMatch[3]` (`none` = group did not
participate). -/
structure TimeGroups where
  full : List Char
  hourDigits : Option (List Char)
  minuteDigits : Option (List Char)
  meridiemChars : Option (List Char)
deriving DecidableEq

/-- Tail of the numeric alternative after the hour digits: optional `:mm`
(greedy), then `\s*`, then the mandatory meridiem. -/
def numTail (hd : List Char) (md : Option (List Char)) (mid : List Char)
    (r : List Char) : Option TimeGroups :=
  let sp := r.takeWhile isSpaceChar
  match meridiemTok (r.dropWhile isSpaceChar) with
  | some (mer, _) => some ⟨hd ++ mid ++ sp ++ mer, some hd, md, some mer⟩
  | none => none

/-- The numeric alternative with a fixed hour-digit count: hour digits,
then `:mm`-present before `:mm`-absent. -/
def digitsStep (nd : Nat) (cs : List Char) : Option TimeGroups :=
  match takeDigits nd cs with
  | none => none
  | some (hd, r1) =>
    let withColon : Option TimeGroups :=
      match r1 with
      | ':' :: r2 =>
        match takeDigits 2 r2 with
        | some (md, r3) => numTail hd (some md) (':' :: md) r3
        | none => none
      | _ => none
    match withColon with
    | some g => some g
    | none => numTail hd none [] r1

/-- The numeric alternative without the `at␣` prefix: `\d{1,2}` is greedy,
so two digits are tried before one. -/
def alt1NoPrefix (cs : List Char) : Option TimeGroups :=
  match digitsStep 2 cs with
  | some g => some g
  | none => digitsStep 1 cs

/-- The full numeric alternative `(?:at\s+)?(\d{1,2})(?::(\d{2}))?\s*(am|pm|AM|PM)`:
the optional prefix is greedy, so the prefixed try comes first. -/
def alt1 (cs : List Char) : Option TimeGroups :=
  match atThenSpaces cs with
  | some (pre, r) =>
    match alt1NoPrefix r with
    | some g => some { g with full := pre ++ g.full }
    | none => alt1NoPrefix cs
  | none => alt1NoPrefix cs

/-- A literal alternative `(?:at\s+)?word` (used for `noon` and `midnight`);
no capture group participates. -/
def litAlt (word : List Char) (cs : List Char) : Option TimeGroups :=
  match atThenSpaces cs with
  | some (pre, r) =>
    match litCI word r with
    | some (wc, _) => some ⟨pre ++ wc, none, none, none⟩
    | none =>
      match litCI word cs with
      | some (wc, _) => some ⟨wc, none, none, none⟩
      | none => none
  | none =>
    match litCI word cs with
    | some (wc, _) => some ⟨wc, none, none, none⟩
    | none => none

/-- The three top-level alternatives, in the order the regex lists them. -/
def timeAlternatives (cs : List Char) : Option TimeGroups :=
  match alt1 cs with
  | some g => some g
  | none =>
    match litAlt "noon".data cs with
    | some g => some g
    | none => litAlt "midnight".data cs

/-- JS `String.prototype.match` for this regex: the leftmost position with a
match wins. -/
def timeRegexSearch (cs : List Char) : Option TimeGroups :=
  match timeAlternatives cs with
  | some g => some g
  | none =>
    match cs with
    | [] => none
    | _ :: rest => timeRegexSearch rest

/-- JS `parseInt` on a non-empty digit string. -/
def digitsToNat (ds : List Char) : Nat :=
  ds.foldl (fun acc c => 10 * acc + (c.toNat - '0'.toNat)) 0

/-- The time-extraction part of `parseDateTimeString` (lines 213–248),
including the bare-hour AM/PM disambiguation block (lines 228–240), which is
kept exactly as written even though the regex guarantees `timeMatch[3]`
whenever `timeMatch[1]` exists. -/
def parseTimeOfString (dateTimeStr : String) : Option TargetTime :=
  match timeRegexSearch dateTimeStr.data with
  | none => none
  | some g =>
    let full := g.full.map Char.toLower
    if containsSub full "noon".data then some ⟨12, 0, "PM"⟩
    else if containsSub full "midnight".data then some ⟨12, 0, "AM"⟩
    else
      let hour := digitsToNat (g.hourDigits.getD ['1', '2'])
      let minute := digitsToNat (g.minuteDigits.getD ['0'])
      let period := String.mk ((g.meridiemChars.getD []).map Char.toUpper)
      let finalPeriod :=
        if period.isEmpty then
          if hour == 12 then "PM"
          else if 1 ≤ hour ∧ hour ≤ 6 then "PM"
          else if 7 ≤ hour ∧ hour ≤ 11 then "AM"
          else "PM"
        else period
      some ⟨hour, minute, finalPeriod⟩

/-! ## The agent success-detection wrapper

`createAgent` (lines 885–973) builds a LangChain executor and replaces its
`call` method with a wrapper (lines 934–970) that post-processes the raw
result: if any intermediate step's observation contains one of four success
markers, the first such step's observation becomes `output` and the steps
after it are dropped; then, if `output` still reports the iteration cap was
hit and the (possibly truncated) last step looks like a completion, `output`
falls back to that step's observation.  The configured iteration cap
(`maxIterations: 2`) never appears in the wrapper, which is modelled over an
arbitrary raw result. -/


/-- One entry of `intermediateSteps`: an action and its observation.  (The
action payload is irrelevant to the wrapper, which only reads
`step.observation`.) -/
structure AgentStep where
  action : String
  observation : String
deriving DecidableEq

/-- The shape of a LangChain `agent.call` result. -/
structure AgentResult where
  output : String
  intermediateSteps : List AgentStep
deriving DecidableEq

/-- The success-marker test of lines 940–947. -/
def isSuccessObservation (obs : String) : Bool :=
  includesStr obs "Task completed successfully"
  || includesStr obs "Successfully opened"
  || includesStr obs "Successfully created"
  || includesStr obs "Successfully sent"

/-- The wrapper around `agent.call` (lines 935–970).  JS `indexOf` uses
reference identity; on values it coincides with first-occurrence search, and
since the searched element is the first one satisfying the predicate, both
agree here. -/
def wrapAgentResult (r : AgentResult) : AgentResult :=
  let r1 :=
    if 0 < r.intermediateSteps.length then
      match r.intermediateSteps.filter
          (fun st => isSuccessObservation st.observation) with
      | [] => r
      | firstSuccess :: _ =>
        let idx := r.intermediateSteps.indexOf firstSuccess
        { r with
          output := firstSuccess.observation
          intermediateSteps := r.intermediateSteps.take (idx + 1) }
    else r
  if r1.output.isEmpty = false
      ∧ includesStr r1.output "Agent stopped due to max iterations" = true
      ∧ 0 < r1.intermediateSteps.length then
    match r1.intermediateSteps.getLast? with
    | some lastStep =>
      if includesStr lastStep.observation "Task completed" then
        { r1 with output := lastStep.observation }
      else r1
    | none => r1
  else r1

/-! ## The pending-tab-request table and the complete endpoint

`pendingTabRequests` is a JS `Map` from string request ids to mutable request
records, modelled as an association list with `Map.get`/`Map.set`/`Map.delete`
semantics (`set` replaces in place, keys stay unique).  Records are created by
the tools with `{ url, serviceName, status: 'pending' }` (or
`{ action: 'screenshot', status: 'pending' }`) and mutated by the
`POST /tab-requests/:id/complete` handler (lines 1038–1067). -/


inductive ReqStatus where
  | pending
  | completed
deriving DecidableEq

/-- A `pendingTabRequests` record with every field any code path may set;
absent JS fields are `none`/`false`. -/
structure TabRequest where
  url : Option String := none
  serviceName : Option String := none
  action : Option String := none
  status : ReqStatus := .pending
  dataUrl : Option String := none
  success : Bool := false
  filename : Option String := none
  downloadId : Option Int := none
  error : Option String := none
deriving DecidableEq

abbrev TabMap := List (String × TabRequest)

/-- JS `Map.get`. -/
def mapGet : TabMap → String → Option TabRequest
  | [], _ => none
  | (k0, v0) :: rest, k => if k0 == k then some v0 else mapGet rest k

/-- JS `Map.set`: replaces the value of an existing key in place, otherwise
appends a new entry. -/
def mapSet : TabMap → String → TabRequest → TabMap
  | [], k, v => [(k, v)]
  | (k0, v0) :: rest, k, v =>
    if k0 == k then (k0, v) :: rest else (k0, v0) :: mapSet rest k v

/-- JS `Map.delete`. -/
def mapDel : TabMap → String → TabMap
  | [], _ => []
  | (k0, v0) :: rest, k => if k0 == k then rest else (k0, v0) :: mapDel rest k

/-- The request body of `POST /tab-requests/:id/complete`:
`{ dataUrl, error, success, filename, downloadId }`. -/
structure CompleteBody where
  dataUrl : Option String := none
  error : Option String := none
  success : Bool := false
  filename : Option String := none
  downloadId : Option Int := none
deriving DecidableEq

/-- The record mutation of the complete handler (lines 1043–1061):
`status = 'completed'`, then each body field is copied under its JS
truthiness guard. -/
def applyCompletion (r : TabRequest) (b : CompleteBody) : TabRequest :=
  let r1 := { r with status := ReqStatus.completed }
  let r2 := if strTruthy b.dataUrl then { r1 with dataUrl := b.dataUrl } else r1
  let r3 := if b.success && strTruthy b.filename then
      { r2 with success := true, filename := b.filename, downloadId := b.downloadId }
    else r2
  if strTruthy b.error then { r3 with error := b.error } else r3

/-- The two responses the handler can send. -/
structure HandlerResponse where
  status : Nat
  ok : Bool
deriving DecidableEq

/-- Handler of `POST /tab-requests/:id/complete` (lines 1038–1067): if the id is in the
map, mutate the record and answer 200, else answer 404 — no exception on
either path. -/
def completeTabRequest (m : TabMap) (reqId : String) (b : CompleteBody) :
    TabMap × HandlerResponse :=
  match mapGet m reqId with
  | some r => (mapSet m reqId (applyCompletion r b), ⟨200, true⟩)
  | none => (m, ⟨404, false⟩)

/-! ## The tab tools: URL resolution, enqueue, bounded wait

`open_new_tab` (lines 392–446) resolves a target URL from its
`service`/`url`/`search` arguments, throws if none can be derived, otherwise
enqueues a pending record under `Date.now().toString()`, waits about one
second, and returns a success string whose wording depends on whether the
record was observed `completed`.  `navigate_browser` (lines 450–478) is the
same enqueue/wait pattern with a mandatory URL.  The external poller that may
complete the record during the wait is modelled as an arbitrary function
`ext` on the table; the tools' return value is an `Except` whose `error` case
is exactly the JS `throw`. -/


/-- The `GOOGLE_SERVICES` table (lines 88–109). -/
def googleServices (s : String) : Option String :=
  match s with
  | "sheets" => some "https://sheets.google.com"
  | "docs" => some "https://docs.google.com"
  | "slides" => some "https://slides.google.com"
  | "forms" => some "https://forms.google.com"
  | "drive" => some "https://drive.google.com"
  | "calendar" => some "https://calendar.google.com"
  | "gmail" => some "https://mail.google.com"
  | "mail" => some "https://mail.google.com"
  | "maps" => some "https://maps.google.com"
  | "meet" => some "https://meet.google.com"
  | "keep" => some "https://keep.google.com"
  | "photos" => some "https://photos.google.com"
  | "contacts" => some "https://contacts.google.com"
  | "tasks" => some "https://tasks.google.com"
  | "translate" => some "https://translate.google.com"
  | "news" => some "https://news.google.com"
  | "youtube" => some "https://youtube.com"
  | "scholar" => some "https://scholar.google.com"
  | "books" => some "https://books.google.com"
  | "earth" => some "https://earth.google.com"
  | _ => none

/-- The `CREATE_NEW_URLS` table (lines 110–115). -/
def createNewUrls (s : String) : Option String :=
  match s with
  | "sheets" => some "https://sheets.google.com/create"
  | "docs" => some "https://docs.google.com/create"
  | "slides" => some "https://slides.google.com/create"
  | "forms" => some "https://forms.google.com/create"
  | _ => none

/-- JS `s.charAt(0).toUpperCase() + s.slice(1)`. -/
def capitalizeFirst (s : String) : String :=
  match s.data with
  | [] => ""
  | c :: rest => String.mk (c.toUpper :: rest)

/-- JS `encodeURIComponent` at ASCII granularity: unreserved characters pass
through, everything else is percent-encoded.  (Non-ASCII code points would be
encoded as multi-byte UTF-8 sequences; no claim inspects the encoded search
URL, and the modelled inputs are ASCII.) -/
def hexDigitChar (n : Nat) : Char :=
  if n < 10 then Char.ofNat (48 + n) else Char.ofNat (65 + n - 10)

def encodeURIComponent (s : String) : String :=
  String.mk (s.data.flatMap (fun c =>
    if c.isAlphanum
        || c ∈ ['-', '_', '.', '!', '~', '*', Char.ofNat 39, '(', ')'] then
      [c]
    else
      ['%', hexDigitChar (c.toNat / 16 % 16), hexDigitChar (c.toNat % 16)]))

/-- JS `lowerService.replace('new ', '')` under the guard
`lowerService.startsWith('new ')`: the first occurrence is the four-character
prefix itself, so the replacement drops it. -/
def dropPrefixNew (s : String) : String :=
  String.mk (s.data.drop 4)

/-- The URL/display-name resolution of `open_new_tab` (lines 393–424): the
search branch, then the service branch with its `new <type>` /
`GOOGLE_SERVICES` / literal `google` sub-branches.  Returns the final
`(finalUrl, serviceName)` pair (each possibly `undefined`); the caller throws
when `finalUrl` is falsy. -/
def resolveOpenTabUrl (service url search : Option String) :
    Option String × Option String :=
  let p0 : Option String × Option String := (url, service)
  let p1 :=
    if strTruthy search && !strTruthy url && !strTruthy service then
      (some ("https://www.google.com/search?q="
          ++ encodeURIComponent (search.getD "")),
       some ("Google Search: " ++ search.getD ""))
    else p0
  if strTruthy service && !strTruthy url && !strTruthy search then
    let lowerService := toLowerStr (service.getD "")
    if jsStartsWith lowerService "new " then
      match createNewUrls (dropPrefixNew lowerService) with
      | some u => (some u, some ("New " ++ capitalizeFirst (dropPrefixNew lowerService)))
      | none => p1
    else
      match googleServices lowerService with
      | some u => (some u, some (capitalizeFirst lowerService))
      | none =>
        if lowerService == "google" then
          (some "https://www.google.com", some "Google")
        else p1
  else p1

/-- The id generation `requestId = Date.now().toString()` shared by
`open_new_tab` (line 427), `navigate_browser` (line 458) and
`take_screenshot` (line 661). -/
def newRequestId (nowMs : Nat) : String :=
  toString nowMs

/-- The enqueue `pendingTabRequests.set(requestId, record)` for a freshly generated id. -/
def enqueuePending (m : TabMap) (nowMs : Nat) (r : TabRequest) : TabMap :=
  mapSet m (newRequestId nowMs) r

/-- Tool `open_new_tab` (lines 392–446): resolve, throw if unresolvable, enqueue,
wait (during which the poller `ext` may rewrite the table), then report.
Completion observed → delete the entry and return the
`"Task completed successfully! …"` string; otherwise return the
`"Task completed! …"` fallback. -/
def openNewTab (m : TabMap) (reqId : String) (service url search : Option String)
    (ext : TabMap → TabMap) : TabMap × Except String String :=
  let res := resolveOpenTabUrl service url search
  if strTruthy res.1 = false then
    (m, Except.error "Please provide either a service name, URL, or search query")
  else
    let fu := res.1.getD ""
    let display := jsOrString res.2 fu
    let m2 := ext (mapSet m reqId
        { url := some fu, serviceName := res.2, status := ReqStatus.pending })
    match mapGet m2 reqId with
    | some r =>
      if r.status = ReqStatus.completed then
        (mapDel m2 reqId,
         Except.ok ("Task completed successfully! I have opened " ++ display
           ++ " in a new tab for you."))
      else
        (m2, Except.ok ("Task completed! I have requested to open " ++ display
          ++ " in a new tab."))
    | none =>
      (m2, Except.ok ("Task completed! I have requested to open " ++ display
        ++ " in a new tab."))

/-- Tool `navigate_browser` (lines 450–478): enqueue, wait, report.  Completion
observed → `"Successfully opened …"`; otherwise `"Requested to open …"`. -/
def navigateBrowser (m : TabMap) (reqId : String) (url : String)
    (ext : TabMap → TabMap) : TabMap × Except String String :=
  let m2 := ext (mapSet m reqId
      { url := some url, serviceName := some url, status := ReqStatus.pending })
  match mapGet m2 reqId with
  | some r =>
    if r.status = ReqStatus.completed then
      (mapDel m2 reqId,
       Except.ok ("Successfully opened " ++ url
         ++ " in a new tab in your current browser window."))
    else
      (m2, Except.ok ("Requested to open " ++ url
        ++ " in a new tab in your current browser window."))
  | none =>
    (m2, Except.ok ("Requested to open " ++ url
      ++ " in a new tab in your current browser window."))

/-- The record `navigate_browser` observes after its bounded wait (line 471:
`pendingTabRequests.get(requestId)`): the entry it enqueued, as possibly
rewritten by the poller `ext` during the one-second wait. -/
def navObserved (m : TabMap) (reqId : String) (url : String)
    (ext : TabMap → TabMap) : Option TabRequest :=
  mapGet (ext (mapSet m reqId
    { url := some url, serviceName := some url, status := ReqStatus.pending })) reqId

/-! ## Theorems -/

theorem containsSub_iff_infix {hay pat : List Char} :
    containsSub hay pat = true ↔ pat <:+: hay := by
  induction hay with
  | nil =>
    simp only [containsSub, List.isEmpty_iff, List.infix_nil]
  | cons a rest ih =>
    simp only [containsSub, Bool.or_eq_true, List.isPrefixOf_iff_prefix, ih,
      List.infix_cons_iff]

/-- Substring containment propagates to substrings of the pattern: if `hay`
includes `a` and `b` occurs inside `a`, then `hay` includes `b`. -/
theorem includes_of_includes_of_infix {hay a b : String}
    (h : includesStr hay a = true) (hba : b.data <:+: a.data) :
    includesStr hay b = true := by
  rw [includesStr, containsSub_iff_infix] at h ⊢
  exact hba.trans h

theorem nextWeekdayOffset_range (target wd : Int) :
    1 ≤ nextWeekdayOffset target wd ∧ nextWeekdayOffset target wd ≤ 7 := by
  unfold nextWeekdayOffset jsOrSeven
  split <;> omega

theorem bareWeekdayOffset_range (target wd : Int) :
    1 ≤ bareWeekdayOffset target wd ∧ bareWeekdayOffset target wd ≤ 7 := by
  unfold bareWeekdayOffset jsOrSeven
  split <;> omega

/-- Every row of the chain table is either the `today` row (offset 0) or has
an offset between 1 and 7 days. -/
theorem dateChainTable_row (wd : Int) :
    ∀ row ∈ dateChainTable wd, row = ("today", 0) ∨ (1 ≤ row.2 ∧ row.2 ≤ 7) := by
  intro row hrow
  simp only [dateChainTable, List.mem_cons, List.not_mem_nil, or_false] at hrow
  rcases hrow with rfl|rfl|rfl|rfl|rfl|rfl|rfl|rfl|rfl|rfl|rfl|rfl|rfl|rfl|rfl|rfl|rfl
  · exact Or.inr (by norm_num)
  · exact Or.inl rfl
  · exact Or.inr (by norm_num)
  · exact Or.inr (nextWeekdayOffset_range 1 wd)
  · exact Or.inr (nextWeekdayOffset_range 2 wd)
  · exact Or.inr (nextWeekdayOffset_range 3 wd)
  · exact Or.inr (nextWeekdayOffset_range 4 wd)
  · exact Or.inr (nextWeekdayOffset_range 5 wd)
  · exact Or.inr (nextWeekdayOffset_range 6 wd)
  · exact Or.inr (nextWeekdayOffset_range 0 wd)
  · exact Or.inr (bareWeekdayOffset_range 1 wd)
  · exact Or.inr (bareWeekdayOffset_range 2 wd)
  · exact Or.inr (bareWeekdayOffset_range 3 wd)
  · exact Or.inr (bareWeekdayOffset_range 4 wd)
  · exact Or.inr (bareWeekdayOffset_range 5 wd)
  · exact Or.inr (bareWeekdayOffset_range 6 wd)
  · exact Or.inr (bareWeekdayOffset_range 0 wd)

/-- Each weekday keyword appears as a row of the chain table. -/
theorem weekday_row_mem (wd : Int) (w : Fin 7) :
    (weekdayName w, bareWeekdayOffset (weekdayCode w) wd) ∈ dateChainTable wd := by
  fin_cases w <;> simp [dateChainTable, weekdayName, weekdayCode]

/-- Exhaustive description of what the keyword chain can produce: either an
offset between 1 and 7 days, or the `today` branch (offset 0), or a fall
through to the absolute-date block, which is only possible when the lowered
input contains none of the seven weekday names. -/
theorem dateChainOffsetLower_cases (l : String) (wd : Int) :
    (∃ n, dateChainOffsetLower l wd = some n ∧ 1 ≤ n ∧ n ≤ 7)
    ∨ (includesStr l "today" = true ∧ dateChainOffsetLower l wd = some 0)
    ∨ ((∀ w : Fin 7, includesStr l (weekdayName w) = false)
        ∧ dateChainOffsetLower l wd = none) := by
  rcases hfind : (dateChainTable wd).find? (fun row => includesStr l row.1) with _ | row
  · refine Or.inr (Or.inr ⟨?_, ?_⟩)
    · intro w
      have hall := List.find?_eq_none.mp hfind
      have hw := hall _ (weekday_row_mem wd w)
      simpa using hw
    · simp [dateChainOffsetLower, hfind]
  · have hmem := List.mem_of_find?_eq_some hfind
    have hp : includesStr l row.1 = true := by
      simpa using List.find?_some hfind
    rcases dateChainTable_row wd row hmem with hrow | hrange
    · subst hrow
      exact Or.inr (Or.inl (by simp [dateChainOffsetLower, hfind]; simpa using hp))
    · exact Or.inl (by exact (by
        refine Exists.intro row.2 (And.intro ?a hrange)
        simp [dateChainOffsetLower, hfind]))

theorem dateChainOffset_eq_lower (s : String) (wd : Int) :
    dateChainOffset s wd = dateChainOffsetLower (toLowerStr s) wd := rfl

/-- Claim C1 is false as stated: with "now" on a Monday (`getDay() = 1`) the
input `"next wednesday"` resolves to an offset of only 2 days, not at least 7.
The `next <weekday>` formula `((target + 7 - getDay()) % 7 || 7)` is the same
function as the bare-weekday formula, so it yields 1–7 days, never more. -/
theorem c1_counterexample :
    includesStr "next wednesday" "next wednesday" = true
    ∧ dateChainOffset "next wednesday" 1 = some 2
    ∧ ¬ (7 ≤ (2 : Int)) := by
  refine ⟨by decide, ?_, by decide⟩
  decide

/-- C1 (amended): for every input string whose lowercasing contains
`"next <weekday>"` and does not contain the earlier-tested keyword `"today"`,
and every value of "now", the date resolved by `parseDateTimeString` is
between 1 and 7 days after now's date — the `"next "` prefix does not push
the resolved weekday at least 7 days out. -/
theorem c1_next_weekday_offset_amended (s : String) (wd : Int) (w : Fin 7)
    (hw : includesStr (toLowerStr s) ("next " ++ weekdayName w) = true)
    (hnotoday : includesStr (toLowerStr s) "today" = false) :
    ∃ n, dateChainOffset s wd = some n ∧ 1 ≤ n ∧ n ≤ 7 := by
  rw [dateChainOffset_eq_lower]
  have hbare : includesStr (toLowerStr s) (weekdayName w) = true := by
    refine includes_of_includes_of_infix hw ?_
    rw [← containsSub_iff_infix]
    fin_cases w <;> decide
  rcases dateChainOffsetLower_cases (toLowerStr s) wd with h | h | h
  · exact h
  · rw [h.1] at hnotoday; cases hnotoday
  · have hfalse := h.1 w
    rw [hbare] at hfalse
    cases hfalse

theorem c1_next_weekday_offset_amended_witness :
    ∃ n, dateChainOffset "next wednesday" 1 = some n ∧ 1 ≤ n ∧ n ≤ 7 :=
  c1_next_weekday_offset_amended "next wednesday" 1 2 (by decide) (by decide)

/-- Claim C7 is false as stated: the input `"monday today"` contains a bare
weekday name and does not contain `"next"`, yet the earlier-tested `"today"`
keyword wins and the resolved date is exactly today (offset 0), not strictly
in the future. -/
theorem c7_counterexample :
    includesStr "monday today" "monday" = true
    ∧ includesStr "monday today" "next" = false
    ∧ dateChainOffset "monday today" 3 = some 0 := by
  refine ⟨by decide, by decide, ?_⟩
  decide

/-- C7 (amended): for every input string whose lowercasing contains a bare
weekday name, does not contain `"next"`, and does not contain the
earlier-tested keyword `"today"`, and every value of "now", the resolved date
is strictly in the future: between 1 and 7 days after now's date, never
today. (The absence of `"next"` is part of the claim; the 1–7 bound in fact
holds for every non-`today` branch of the keyword chain.) -/
theorem c7_bare_weekday_offset_amended (s : String) (wd : Int) (w : Fin 7)
    (hw : includesStr (toLowerStr s) (weekdayName w) = true)
    (hnonext : includesStr (toLowerStr s) "next" = false)
    (hnotoday : includesStr (toLowerStr s) "today" = false) :
    ∃ n, dateChainOffset s wd = some n ∧ 1 ≤ n ∧ n ≤ 7 := by
  rw [dateChainOffset_eq_lower]
  rcases dateChainOffsetLower_cases (toLowerStr s) wd with h | h | h
  · exact h
  · rw [h.1] at hnotoday; cases hnotoday
  · have hfalse := h.1 w
    rw [hw] at hfalse
    cases hfalse

theorem c7_bare_weekday_offset_amended_witness :
    ∃ n, dateChainOffset "friday" 2 = some n ∧ 1 ≤ n ∧ n ≤ 7 :=
  c7_bare_weekday_offset_amended "friday" 2 4 (by decide) (by decide) (by decide)

theorem daysInMonth_bounds (y : Int) (m : Nat) :
    28 ≤ daysInMonth y m ∧ daysInMonth y m ≤ 31 := by
  unfold daysInMonth
  split
  · split <;> omega
  all_goals omega

theorem daysInMonth_eleven (y : Int) : daysInMonth y 11 = 31 := rfl

/-- February is the only month shorter than 30 days. -/
theorem month_of_daysInMonth_le29 (y : Int) (m : Nat) (hm : m ≤ 11)
    (h : daysInMonth y m ≤ 29) : m = 1 := by
  interval_cases m <;> simp [daysInMonth, isLeapYear] at h ⊢

theorem normDateAux_of_le (fuel : Nat) (y : Int) (m d : Nat)
    (h : d ≤ daysInMonth y m) : normDateAux fuel y m d = ⟨y, m, d⟩ := by
  cases fuel with
  | zero => rfl
  | succ k => simp [normDateAux, h]

theorem normDate_of_le (y : Int) (m d : Nat) (h : d ≤ daysInMonth y m) :
    normDate y m d = ⟨y, m, d⟩ :=
  normDateAux_of_le d y m d h

/-- Characterisation of `normDate` for real-world arguments (day between 1
and 31, month between 0 and 11): either the day fits the month, or exactly
one roll into the next month of the same year happens. -/
theorem normDate_char (y : Int) (m d : Nat)
    (hd1 : 1 ≤ d) (hd31 : d ≤ 31) (hm : m ≤ 11) :
    (d ≤ daysInMonth y m ∧ normDate y m d = ⟨y, m, d⟩)
    ∨ (daysInMonth y m < d ∧ m ≠ 11 ∧ m + 1 ≤ 11
        ∧ normDate y m d = ⟨y, m + 1, d - daysInMonth y m⟩
        ∧ 1 ≤ d - daysInMonth y m ∧ d - daysInMonth y m ≤ 3) := by
  have hb := daysInMonth_bounds y m
  by_cases h : d ≤ daysInMonth y m
  · exact Or.inl ⟨h, normDate_of_le y m d h⟩
  · have hm11 : m ≠ 11 := by
      intro hm'
      subst hm'
      rw [daysInMonth_eleven] at h
      omega
    have hm11' : m + 1 ≤ 11 := by omega
    refine Or.inr ⟨by omega, hm11, hm11', ?_, by omega, by omega⟩
    obtain ⟨k, rfl⟩ : ∃ k, d = k + 1 := ⟨d - 1, by omega⟩
    have hb' := daysInMonth_bounds y (m + 1)
    rw [normDate]
    rw [show normDateAux (k + 1) y m (k + 1)
        = normDateAux k y (m + 1) (k + 1 - daysInMonth y m) by
      simp [normDateAux, h, hm11]]
    exact normDateAux_of_le k y (m + 1) (k + 1 - daysInMonth y m) (by omega)

/-- The function `normDate` never moves across a year boundary for real-world arguments
(day ≤ 31 never overflows December's 31 days). -/
theorem normDate_year (y : Int) (m d : Nat)
    (hd1 : 1 ≤ d) (hd31 : d ≤ 31) (hm : m ≤ 11) :
    (normDate y m d).year = y := by
  rcases normDate_char y m d hd1 hd31 hm with ⟨_, h⟩ | ⟨_, _, _, h, _, _⟩ <;>
    rw [h]

/-- Shared tail of the rollover argument: once `setMonth`/`setDate` are known
to have produced the date `(now.year, M, day)` and that date is earlier than
`now`, the branch `setFullYear(getFullYear() + 1)` runs and the result lands
in year `now.year + 1`, hence not in the past. -/
theorem resolveMonthDay_done (now : CivilDate) (mi day M : Nat)
    (ht1 : jsSetDate (jsSetMonth now mi) day = ⟨now.year, M, day⟩)
    (hM : M ≤ 11) (hd1 : 1 ≤ day) (hd31 : day ≤ 31)
    (hlt : dateLtB ⟨now.year, M, day⟩ now = true) :
    (resolveMonthDay now mi day).year = now.year + 1
    ∧ dateLtB (resolveMonthDay now mi day) now = false := by
  have hres : resolveMonthDay now mi day = normDate (now.year + 1) M day := by
    simp [resolveMonthDay, ht1, hlt, jsSetFullYear]
  have hyear : (normDate (now.year + 1) M day).year = now.year + 1 :=
    normDate_year (now.year + 1) M day hd1 hd31 hM
  refine ⟨by rw [hres, hyear], ?_⟩
  rw [hres]
  simp only [dateLtB, decide_eq_false_iff_not]
  omega

/-- C5 (confirmed): for a month/day that falls lexicographically earlier than
`now`'s month/day in the current year, the absolute-date branch of
`parseDateTimeString` advances the year by exactly one — the resolved year is
`now.year + 1`, never more — and the resolved date is not in the past
relative to `now`. -/
theorem c5_month_day_year_rollover (now : CivilDate) (monthIndex day : Nat)
    (hnow : ValidCivil now) (hmi : monthIndex ≤ 11)
    (hd1 : 1 ≤ day) (hd2 : day ≤ daysInMonth now.year monthIndex)
    (hearlier : monthIndex < now.month
      ∨ (monthIndex = now.month ∧ day < now.day)) :
    (resolveMonthDay now monthIndex day).year = now.year + 1
    ∧ dateLtB (resolveMonthDay now monthIndex day) now = false := by
  obtain ⟨hnm, hnd1, hnd2⟩ := hnow
  have hnowday31 : now.day ≤ 31 := le_trans hnd2 (daysInMonth_bounds _ _).2
  have hday31 : day ≤ 31 := le_trans hd2 (daysInMonth_bounds _ _).2
  rcases normDate_char now.year monthIndex now.day hnd1 hnowday31 hmi with
    ⟨hfit, heq0⟩ | ⟨hov, hne11, hle11, heq0, hrd1, hrd3⟩
  · -- `setMonth` kept the day-of-month: the date is (year, monthIndex, day)
    have ht1 : jsSetDate (jsSetMonth now monthIndex) day
        = ⟨now.year, monthIndex, day⟩ := by
      have hsm : jsSetMonth now monthIndex = ⟨now.year, monthIndex, now.day⟩ := by
        rw [jsSetMonth, heq0]
      rw [hsm, jsSetDate]
      exact normDate_of_le now.year monthIndex day hd2
    have hlt : dateLtB ⟨now.year, monthIndex, day⟩ now = true := by
      simp only [dateLtB, decide_eq_true_eq]
      exact Or.inr ⟨trivial, hearlier⟩
    exact resolveMonthDay_done now monthIndex day monthIndex ht1 hmi hd1 hday31 hlt
  · -- `setMonth` overflowed into the following month
    have hminow : monthIndex < now.month := by
      rcases hearlier with h | ⟨heq, h⟩
      · exact h
      · subst heq; omega
    have hd2second : day ≤ daysInMonth now.year (monthIndex + 1) := by
      by_contra hcon
      push_neg at hcon
      have h30 : daysInMonth now.year monthIndex ≤ 30 := by omega
      have h29 : daysInMonth now.year (monthIndex + 1) ≤ 29 := by omega
      have hfeb : monthIndex + 1 = 1 :=
        month_of_daysInMonth_le29 now.year (monthIndex + 1) hle11 h29
      have hz : monthIndex = 0 := by omega
      subst hz
      have h31 : daysInMonth now.year 0 = 31 := rfl
      omega
    have ht1 : jsSetDate (jsSetMonth now monthIndex) day
        = ⟨now.year, monthIndex + 1, day⟩ := by
      have hsm : jsSetMonth now monthIndex
          = ⟨now.year, monthIndex + 1, now.day - daysInMonth now.year monthIndex⟩ := by
        rw [jsSetMonth, heq0]
      rw [hsm, jsSetDate]
      exact normDate_of_le now.year (monthIndex + 1) day hd2second
    have hlt : dateLtB ⟨now.year, monthIndex + 1, day⟩ now = true := by
      simp only [dateLtB, decide_eq_true_eq]
      refine Or.inr ⟨trivial, ?_⟩
      omega
    exact resolveMonthDay_done now monthIndex day (monthIndex + 1) ht1 hle11 hd1 hday31 hlt

/-- Witness for C5: now = May 1 2025 (month index 4), input month/day =
February 10 (month index 1): the resolved year is 2026 and the result is not
in the past. -/
theorem c5_month_day_year_rollover_witness :
    (resolveMonthDay ⟨2025, 4, 1⟩ 1 10).year = (2025 : Int) + 1
    ∧ dateLtB (resolveMonthDay ⟨2025, 4, 1⟩ 1 10) ⟨2025, 4, 1⟩ = false :=
  c5_month_day_year_rollover ⟨2025, 4, 1⟩ 1 10
    ⟨by norm_num, by norm_num, by norm_num [daysInMonth]⟩
    (by norm_num) (by norm_num) (by decide) (Or.inl (by norm_num))

/-- C6 (confirmed): the end time is exactly one hour after the start time
with the claimed wraparound: (11, m, AM) → (12, m, PM); (12, m, PM) →
(1, m, PM); (11, m, PM) → (12, m, AM); (12, m, AM) → (1, m, AM); and every
other hour maps to hour + 1 with meridiem and minutes unchanged. -/
theorem c6_end_time_wraparound (m h : Nat) (p : String)
    (hp : p = "AM" ∨ p = "PM") (h11 : h ≠ 11) (h12 : h ≠ 12) :
    calendarEndTime ⟨11, m, "AM"⟩ = ⟨12, m, "PM"⟩
    ∧ calendarEndTime ⟨12, m, "PM"⟩ = ⟨1, m, "PM"⟩
    ∧ calendarEndTime ⟨11, m, "PM"⟩ = ⟨12, m, "AM"⟩
    ∧ calendarEndTime ⟨12, m, "AM"⟩ = ⟨1, m, "AM"⟩
    ∧ calendarEndTime ⟨h, m, p⟩ = ⟨h + 1, m, p⟩ := by
  refine ⟨by simp [calendarEndTime], by simp [calendarEndTime],
    by simp [calendarEndTime], by simp [calendarEndTime], ?_⟩
  rcases hp with rfl | rfl <;> simp [calendarEndTime, h11, h12]

theorem c6_end_time_wraparound_witness :
    calendarEndTime ⟨11, 0, "AM"⟩ = ⟨12, 0, "PM"⟩
    ∧ calendarEndTime ⟨12, 0, "PM"⟩ = ⟨1, 0, "PM"⟩
    ∧ calendarEndTime ⟨11, 0, "PM"⟩ = ⟨12, 0, "AM"⟩
    ∧ calendarEndTime ⟨12, 0, "AM"⟩ = ⟨1, 0, "AM"⟩
    ∧ calendarEndTime ⟨3, 0, "PM"⟩ = ⟨3 + 1, 0, "PM"⟩ :=
  c6_end_time_wraparound 0 3 "PM" (Or.inr rfl) (by norm_num) (by norm_num)

/-- C2 (code bug): the sample behaviours with an explicit meridiem or the
`noon`/`midnight` keywords hold, but a bare hour extracts no time at all —
the regex's numeric alternative requires `(am|pm)`, so `"at 9"` and `"at 3"`
do not match and `targetTime` stays `null`; the documented bare-hour
disambiguation table (hour 12 → PM, 1–6 → PM, 7–11 → AM) is unreachable
code. -/
theorem c2_time_extraction_eval :
    parseTimeOfString "at 2pm" = some ⟨2, 0, "PM"⟩
    ∧ parseTimeOfString "at noon" = some ⟨12, 0, "PM"⟩
    ∧ parseTimeOfString "at midnight" = some ⟨12, 0, "AM"⟩
    ∧ parseTimeOfString "at 9" = none
    ∧ parseTimeOfString "at 3" = none := by
  refine ⟨?_, ?_, ?_, ?_, ?_⟩ <;> decide

theorem filter_first_decomp {p : AgentStep → Bool}
    (pre : List AgentStep) (st : AgentStep) (post : List AgentStep)
    (hpre : ∀ s ∈ pre, p s = false) (hst : p st = true) :
    (pre ++ st :: post).filter p = st :: post.filter p := by
  rw [List.filter_append]
  rw [List.filter_eq_nil_iff.mpr (by intro a ha; simp [hpre a ha])]
  rw [List.nil_append, List.filter_cons_of_pos hst]

/-- C3 (confirmed): whenever the raw intermediate steps decompose as
`pre ++ st :: post` where no step of `pre` carries a success marker and `st`
does (i.e. `st` is the first success), the wrapped result's output equals
`st.observation` and the wrapped steps are exactly `pre ++ [st]` — every step
after the first success is removed — for step lists of any length,
independent of the configured iteration cap. -/
theorem c3_success_truncation (r : AgentResult)
    (pre : List AgentStep) (st : AgentStep) (post : List AgentStep)
    (hdecomp : r.intermediateSteps = pre ++ st :: post)
    (hpre : ∀ s ∈ pre, isSuccessObservation s.observation = false)
    (hst : isSuccessObservation st.observation = true) :
    (wrapAgentResult r).output = st.observation
    ∧ (wrapAgentResult r).intermediateSteps = pre ++ [st] := by
  have hfilter : r.intermediateSteps.filter
      (fun s => isSuccessObservation s.observation)
      = st :: post.filter (fun s => isSuccessObservation s.observation) := by
    rw [hdecomp]
    exact filter_first_decomp pre st post hpre hst
  have hnotmem : st ∉ pre := fun hmem => by
    rw [hpre st hmem] at hst
    cases hst
  have hidx : r.intermediateSteps.indexOf st = pre.length := by
    rw [hdecomp, List.indexOf_append_of_not_mem hnotmem,
      List.indexOf_cons_self, Nat.add_zero]
  have hlen : 0 < r.intermediateSteps.length := by
    rw [hdecomp]
    simp
  have htake : r.intermediateSteps.take (pre.length + 1) = pre ++ [st] := by
    rw [hdecomp]
    rw [show pre.length + 1 = pre.length + 1 from rfl]
    rw [List.take_append]
    simp
  have hr1 : wrapAgentResult r
      = (fun r1 =>
          if r1.output.isEmpty = false
              ∧ includesStr r1.output "Agent stopped due to max iterations" = true
              ∧ 0 < r1.intermediateSteps.length then
            match r1.intermediateSteps.getLast? with
            | some lastStep =>
              if includesStr lastStep.observation "Task completed" then
                { r1 with output := lastStep.observation }
              else r1
            | none => r1
          else r1)
        ⟨st.observation, pre ++ [st]⟩ := by
    rw [wrapAgentResult]
    simp only [if_pos hlen, hfilter, hidx, htake]
  rw [hr1]
  have hlast : (pre ++ [st]).getLast? = some st := List.getLast?_concat pre
  constructor
  · by_cases hcond : (String.isEmpty st.observation = false
        ∧ includesStr st.observation "Agent stopped due to max iterations" = true
        ∧ 0 < (pre ++ [st]).length)
    · simp only [if_pos hcond, hlast]
      split <;> rfl
    · simp only [if_neg hcond]
  · by_cases hcond : (String.isEmpty st.observation = false
        ∧ includesStr st.observation "Agent stopped due to max iterations" = true
        ∧ 0 < (pre ++ [st]).length)
    · simp only [if_pos hcond, hlast]
      split <;> rfl
    · simp only [if_neg hcond]

theorem c3_success_truncation_witness :
    (wrapAgentResult ⟨"Agent stopped due to max iterations",
        [⟨"open_new_tab", "Requested to open Gmail in a new tab."⟩,
         ⟨"send_email", "Successfully sent email to a@b.com"⟩,
         ⟨"send_email", "Successfully sent email to a@b.com (repeat)"⟩]⟩).output
      = "Successfully sent email to a@b.com"
    ∧ (wrapAgentResult ⟨"Agent stopped due to max iterations",
        [⟨"open_new_tab", "Requested to open Gmail in a new tab."⟩,
         ⟨"send_email", "Successfully sent email to a@b.com"⟩,
         ⟨"send_email", "Successfully sent email to a@b.com (repeat)"⟩]⟩).intermediateSteps
      = [⟨"open_new_tab", "Requested to open Gmail in a new tab."⟩,
         ⟨"send_email", "Successfully sent email to a@b.com"⟩] :=
  c3_success_truncation _
    [⟨"open_new_tab", "Requested to open Gmail in a new tab."⟩]
    ⟨"send_email", "Successfully sent email to a@b.com"⟩
    [⟨"send_email", "Successfully sent email to a@b.com (repeat)"⟩]
    rfl (by decide) (by decide)

theorem mapGet_set_self (m : TabMap) (k : String) (v : TabRequest) :
    mapGet (mapSet m k v) k = some v := by
  induction m with
  | nil => simp [mapSet, mapGet]
  | cons hd rest ih =>
    obtain ⟨k0, v0⟩ := hd
    by_cases h : k0 == k
    · simp [mapSet, mapGet, h]
    · simp [mapSet, mapGet, h, ih]

theorem mapSet_set_self (m : TabMap) (k : String) (v w : TabRequest) :
    mapSet (mapSet m k v) k w = mapSet m k w := by
  induction m with
  | nil => simp [mapSet]
  | cons hd rest ih =>
    obtain ⟨k0, v0⟩ := hd
    by_cases h : k0 == k
    · simp [mapSet, h]
    · simp [mapSet, h, ih]

theorem applyCompletion_idem (r : TabRequest) (b : CompleteBody) :
    applyCompletion (applyCompletion r b) b = applyCompletion r b := by
  unfold applyCompletion
  split <;> split <;> split <;> rfl

/-- C4 (confirmed): the complete endpoint (a) leaves the table unchanged and
answers 404 (no exception) on an unknown id, (b) transitions any found record
to `completed` — `applyCompletion` can never produce `pending`, so a
completed record never reverts — and (c) a second completion attempt with the
same id and body leaves the table exactly as after the first: a deterministic
no-op. -/
theorem c4_complete_endpoint (m : TabMap) (reqId : String) (b : CompleteBody) :
    (mapGet m reqId = none → completeTabRequest m reqId b = (m, ⟨404, false⟩))
    ∧ (∀ r, mapGet m reqId = some r →
        completeTabRequest m reqId b
          = (mapSet m reqId (applyCompletion r b), ⟨200, true⟩)
        ∧ (applyCompletion r b).status = ReqStatus.completed)
    ∧ (completeTabRequest (completeTabRequest m reqId b).1 reqId b).1
        = (completeTabRequest m reqId b).1 := by
  refine ⟨?_, ?_, ?_⟩
  · intro h
    simp [completeTabRequest, h]
  · intro r h
    refine ⟨by simp [completeTabRequest, h], ?_⟩
    unfold applyCompletion
    split <;> split <;> split <;> rfl
  · rcases hget : mapGet m reqId with _ | r
    · simp [completeTabRequest, hget]
    · simp only [completeTabRequest, hget]
      rw [mapGet_set_self]
      simp only
      rw [applyCompletion_idem, mapSet_set_self]

theorem c4_complete_endpoint_witness :
    completeTabRequest [] "9" {} = ([], ⟨404, false⟩)
    ∧ (applyCompletion { url := some "https://mail.google.com" } {}).status
        = ReqStatus.completed :=
  ⟨(c4_complete_endpoint [] "9" {}).1 rfl,
   ((c4_complete_endpoint [("9", { url := some "https://mail.google.com" })]
      "9" {}).2.1 _ (by decide)).2⟩

theorem strData_append (s t : String) : (s ++ t).data = s.data ++ t.data := by
  cases s
  cases t
  rfl

/-- A string built as `lit ++ mid ++ tail` starts with any prefix of `lit`. -/
theorem jsStartsWith_concat2 (p lit mid tail : String)
    (h : p.data <+: lit.data) :
    jsStartsWith (lit ++ mid ++ tail) p = true := by
  rw [jsStartsWith, List.isPrefixOf_iff_prefix, strData_append, strData_append]
  exact (h.trans (List.prefix_append _ _)).trans (List.prefix_append _ _)

/-- Claim C8 is false as stated: when the relay-queue entry is not observed
`completed` within the wait (here the poller does nothing), `navigate_browser`
returns `"Requested to open …"`, which does not begin with `"Successfully"`
or `"Task completed"`. -/
theorem c8_counterexample :
    (navigateBrowser [] "1700000000000" "https://example.com" (fun m => m)).2
      = Except.ok
        "Requested to open https://example.com in a new tab in your current browser window."
    ∧ jsStartsWith
        "Requested to open https://example.com in a new tab in your current browser window."
        "Successfully" = false
    ∧ jsStartsWith
        "Requested to open https://example.com in a new tab in your current browser window."
        "Task completed" = false := by
  refine ⟨rfl, by decide, by decide⟩

/-- A prefix claim that fails inside the leading literal fails for the whole
concatenation: if `p` (cut to the literal's length) is not a prefix of `lit`,
then `lit ++ mid ++ tail` does not start with `p`. -/
theorem not_jsStartsWith_concat2 (p lit mid tail : String)
    (h : ¬ p.data.take lit.data.length <+: lit.data) :
    jsStartsWith (lit ++ mid ++ tail) p = false := by
  have hnp : ¬ p.data <+: (lit ++ mid ++ tail).data := by
    rw [strData_append, strData_append]
    intro hp
    apply h
    obtain ⟨t, ht⟩ := hp
    refine ⟨t.take (lit.data.length - p.data.length), ?_⟩
    have htake := congrArg (List.take lit.data.length) ht
    rw [List.take_append_eq_append_take] at htake
    rw [List.append_assoc, List.take_left] at htake
    exact htake
  rw [jsStartsWith, ← Bool.not_eq_true, List.isPrefixOf_iff_prefix]
  exact hnp

/-- C8 (amended): both tools always return normally after the bounded wait —
`open_new_tab` never throws once a URL was resolved, `navigate_browser` never
throws at all.  `open_new_tab`'s string always begins with
`"Task completed"`.  `navigate_browser`'s string is determined by the record
it observes after the wait: exactly when the observed entry is `completed` the
result is the `"Successfully opened …"` string, and in every other case (entry
still pending, or entry gone) it is the `"Requested to open …"` string, which
does not begin with `"Successfully opened"`. -/
theorem c8_tool_success_strings_amended (m : TabMap) (reqId : String)
    (service url search : Option String) (navUrl : String)
    (ext : TabMap → TabMap)
    (hres : strTruthy (resolveOpenTabUrl service url search).1 = true) :
    (∃ s, (openNewTab m reqId service url search ext).2 = Except.ok s
        ∧ jsStartsWith s "Task completed" = true)
    ∧ (∀ r, navObserved m reqId navUrl ext = some r →
        r.status = ReqStatus.completed →
        (navigateBrowser m reqId navUrl ext).2
          = Except.ok ("Successfully opened " ++ navUrl
              ++ " in a new tab in your current browser window.")
        ∧ jsStartsWith ("Successfully opened " ++ navUrl
              ++ " in a new tab in your current browser window.")
            "Successfully opened" = true)
    ∧ (∀ r, navObserved m reqId navUrl ext = some r →
        r.status ≠ ReqStatus.completed →
        (navigateBrowser m reqId navUrl ext).2
          = Except.ok ("Requested to open " ++ navUrl
              ++ " in a new tab in your current browser window.")
        ∧ jsStartsWith ("Requested to open " ++ navUrl
              ++ " in a new tab in your current browser window.")
            "Requested to open" = true
        ∧ jsStartsWith ("Requested to open " ++ navUrl
              ++ " in a new tab in your current browser window.")
            "Successfully opened" = false)
    ∧ (navObserved m reqId navUrl ext = none →
        (navigateBrowser m reqId navUrl ext).2
          = Except.ok ("Requested to open " ++ navUrl
              ++ " in a new tab in your current browser window.")
        ∧ jsStartsWith ("Requested to open " ++ navUrl
              ++ " in a new tab in your current browser window.")
            "Requested to open" = true
        ∧ jsStartsWith ("Requested to open " ++ navUrl
              ++ " in a new tab in your current browser window.")
            "Successfully opened" = false) := by
  refine ⟨?_, ?_, ?_, ?_⟩
  · simp only [openNewTab, hres]
    rw [if_neg (by simp)]
    rcases hget : mapGet (ext (mapSet m reqId
        { url := some ((resolveOpenTabUrl service url search).1.getD ""),
          serviceName := (resolveOpenTabUrl service url search).2,
          status := ReqStatus.pending })) reqId with _ | r
    · exact ⟨_, rfl, jsStartsWith_concat2 _ _ _ _ (by decide)⟩
    · dsimp only
      by_cases hst : r.status = ReqStatus.completed
      · rw [if_pos hst]
        exact ⟨_, rfl, jsStartsWith_concat2 _ _ _ _ (by decide)⟩
      · rw [if_neg hst]
        exact ⟨_, rfl, jsStartsWith_concat2 _ _ _ _ (by decide)⟩
  · intro r hobs hst
    have hobs' : mapGet (ext (mapSet m reqId
        { url := some navUrl, serviceName := some navUrl,
          status := ReqStatus.pending })) reqId = some r := hobs
    refine ⟨?_, jsStartsWith_concat2 _ _ _ _ (by decide)⟩
    simp only [navigateBrowser]
    rw [hobs']
    dsimp only
    rw [if_pos hst]
  · intro r hobs hst
    have hobs' : mapGet (ext (mapSet m reqId
        { url := some navUrl, serviceName := some navUrl,
          status := ReqStatus.pending })) reqId = some r := hobs
    refine ⟨?_, jsStartsWith_concat2 _ _ _ _ (by decide),
      not_jsStartsWith_concat2 _ _ _ _ (by decide)⟩
    simp only [navigateBrowser]
    rw [hobs']
    dsimp only
    rw [if_neg hst]
  · intro hobs
    have hobs' : mapGet (ext (mapSet m reqId
        { url := some navUrl, serviceName := some navUrl,
          status := ReqStatus.pending })) reqId = none := hobs
    refine ⟨?_, jsStartsWith_concat2 _ _ _ _ (by decide),
      not_jsStartsWith_concat2 _ _ _ _ (by decide)⟩
    simp only [navigateBrowser]
    rw [hobs']

theorem c8_tool_success_strings_amended_witness :
    (∃ s, (openNewTab [] "1" (some "gmail") none none (fun m => m)).2
        = Except.ok s ∧ jsStartsWith s "Task completed" = true)
    ∧ (navigateBrowser [] "1" "https://example.com"
        (fun mm => mapSet mm "1"
          { url := some "https://example.com",
            serviceName := some "https://example.com",
            status := ReqStatus.completed })).2
      = Except.ok ("Successfully opened " ++ "https://example.com"
          ++ " in a new tab in your current browser window.")
    ∧ (navigateBrowser [] "1" "https://example.com" (fun m => m)).2
      = Except.ok ("Requested to open " ++ "https://example.com"
          ++ " in a new tab in your current browser window.") :=
  ⟨(c8_tool_success_strings_amended [] "1" (some "gmail") none none
      "https://example.com" (fun m => m) (by decide)).1,
   ((c8_tool_success_strings_amended [] "1" (some "gmail") none none
      "https://example.com"
      (fun mm => mapSet mm "1"
        { url := some "https://example.com",
          serviceName := some "https://example.com",
          status := ReqStatus.completed }) (by decide)).2.1
      { url := some "https://example.com",
        serviceName := some "https://example.com",
        status := ReqStatus.completed } (by decide) rfl).1,
   ((c8_tool_success_strings_amended [] "1" (some "gmail") none none
      "https://example.com" (fun m => m) (by decide)).2.2.1
      { url := some "https://example.com",
        serviceName := some "https://example.com",
        status := ReqStatus.pending } (by decide) (by decide)).1⟩

/-- C9 (code bug): request ids are `Date.now().toString()`, so two enqueues
that read the same millisecond clock value produce the same id and the second
`Map.set` overwrites the first record — the table ends with a single entry
holding the second record, although the two enqueued records differ. -/
theorem c9_requestId_collision_eval :
    newRequestId 1700000000000 = newRequestId 1700000000000
    ∧ enqueuePending (enqueuePending [] 1700000000000
          { url := some "https://sheets.google.com",
            serviceName := some "Sheets", status := ReqStatus.pending })
        1700000000000
        { url := some "https://mail.google.com",
          serviceName := some "Gmail", status := ReqStatus.pending }
      = [(newRequestId 1700000000000,
          { url := some "https://mail.google.com",
            serviceName := some "Gmail", status := ReqStatus.pending })]
    ∧ ({ url := some "https://sheets.google.com",
          serviceName := some "Sheets", status := ReqStatus.pending } : TabRequest)
        ≠ { url := some "https://mail.google.com",
            serviceName := some "Gmail", status := ReqStatus.pending } := by
  refine ⟨rfl, by decide, by decide⟩

/-- C10 (confirmed): with no `url`, no `search`, and a service name that is
not a `GOOGLE_SERVICES` key, not the literal `"google"`, and not
`"new <type>"` for a `CREATE_NEW_URLS` type, no URL is resolved:
`open_new_tab` returns the exact error
`"Please provide either a service name, URL, or search query"` and the
pending-request table is untouched (the throw happens before the
`Map.set`). -/
theorem c10_unresolvable_service_error (m : TabMap) (reqId : String)
    (svc : String) (ext : TabMap → TabMap)
    (h1 : googleServices (toLowerStr svc) = none)
    (h2 : (toLowerStr svc == "google") = false)
    (h3 : jsStartsWith (toLowerStr svc) "new " = true →
      createNewUrls (dropPrefixNew (toLowerStr svc)) = none) :
    openNewTab m reqId (some svc) none none ext
      = (m, Except.error
          "Please provide either a service name, URL, or search query") := by
  have hres : (resolveOpenTabUrl (some svc) none none).1 = none := by
    by_cases he : svc.isEmpty
    · simp [resolveOpenTabUrl, strTruthy, he]
    · by_cases hn : jsStartsWith (toLowerStr svc) "new "
      · simp [resolveOpenTabUrl, strTruthy, he, hn, h3 hn]
      · simp [resolveOpenTabUrl, strTruthy, he, hn, h1, h2]
  simp [openNewTab, hres, strTruthy]

theorem c10_unresolvable_service_error_witness :
    openNewTab [] "1" (some "myspace") none none (fun m => m)
      = ([], Except.error
          "Please provide either a service name, URL, or search query") :=
  c10_unresolvable_service_error [] "1" "myspace" (fun m => m)
    (by decide) (by decide) (by decide)
